import Mathlib

set_option maxHeartbeats 1000000
set_option maxRecDepth 8192
set_option autoImplicit false

/-!
Verification development for the koatty_cacheable repository.

The definitions below are a shallow embedding of the repository's code:

* `getParamIndex`, `generateCacheKey` embed `src/utils.ts`;
* `cacheAbleCall`, `cacheEvictCall` embed the wrapped-method bodies produced by
  the `CacheAble` / `CacheEvict` decorators of `src/cache.ts` (current version);
* `cacheAbleV6Call` embeds the `CacheAble` wrapper of the `part_006` variant;
* `cacheAbleLegacyCall` embeds the 2023 `CacheAble` wrapper of `part_001`;
* `resolveCall` / `promiseResolve` / `promiseReject` embed the single-flight
  store resolver `GetCacheStore` of `part_000`.

JavaScript runtime values are modelled by the inductive type `Value`
(JSON-like data: undefined, null, booleans, integers, strings, arrays,
objects; floating point numbers are out of scope).  External collaborators
(`koatty_lib` helpers, the JSON built-ins, the key-value store) are modelled
faithfully to their documented semantics, as noted at each definition.
-/

mutual

/-- JavaScript runtime values, restricted to JSON-like data with integer
numbers.  `ValueList` and `FieldList` are unrolled list types so that all
recursions below are plain structural mutual recursions (and hence reduce in
the kernel). -/
inductive Value where
  | vundef : Value
  | vnull : Value
  | vbool : Bool → Value
  | vnum : Int → Value
  | vstr : String → Value
  | varr : ValueList → Value
  | vobj : FieldList → Value

inductive ValueList where
  | nil : ValueList
  | cons : Value → ValueList → ValueList

inductive FieldList where
  | nil : FieldList
  | cons : String → Value → FieldList → FieldList

end

/-- Modelled from the spec: `Helper.isEmpty` of `koatty_lib` (external), on the
value classes the spec calls "empty/absent": `null`, empty string, `undefined`
(spec section 4.3 step 6). -/
def isEmptyValue : Value → Bool
  | Value.vundef => true
  | Value.vnull => true
  | Value.vstr s => s = ""
  | _ => false

/-- Modelled from the spec: `Helper.isJSONObj` of `koatty_lib` (external):
true exactly for JSON objects and arrays, which are the values the wrapper
serializes with `JSON.stringify` before writing them to the store. -/
def isJSONObj : Value → Bool
  | Value.varr _ => true
  | Value.vobj _ => true
  | _ => false

/-- Left brace character (written via its code point to keep string literals
free of braces). -/
def lbrace : Char := Char.ofNat 123

/-- Right brace character. -/
def rbrace : Char := Char.ofNat 125

mutual

/-- Modelled from the spec: JavaScript string coercion `String(v)` for the
value shapes that can reach it in the embedded code (scalar store contents). -/
def jsToString : Value → String
  | Value.vundef => "undefined"
  | Value.vnull => "null"
  | Value.vbool true => "true"
  | Value.vbool false => "false"
  | Value.vnum n => toString n
  | Value.vstr s => s
  | Value.varr es => jsToStringElems es
  | Value.vobj _ => "[object Object]"

def jsToStringElems : ValueList → String
  | ValueList.nil => ""
  | ValueList.cons v ValueList.nil => jsToStringOne v
  | ValueList.cons v rest => jsToStringOne v ++ "," ++ jsToStringElems rest

def jsToStringOne : Value → String
  | Value.vundef => ""
  | Value.vnull => ""
  | Value.vbool true => "true"
  | Value.vbool false => "false"
  | Value.vnum n => toString n
  | Value.vstr s => s
  | Value.varr es => jsToStringElems es
  | Value.vobj _ => "[object Object]"

end

/-- Modelled from the spec: `Helper.toString` of `koatty_lib` (external), the
stable textual form the Key Deriver applies to each cache-relevant argument
(spec section 4.1 `stringify`).  Modelled as JavaScript string coercion. -/
def helperToString (v : Value) : String := jsToString v

/-- Reduce a value to 32 bits. -/
def m32 (x : Nat) : Nat := x % 4294967296

/-- 32-bit multiplication. -/
def mul32 (a b : Nat) : Nat := (a * b) % 4294967296

/-- 32-bit left rotation. -/
def rotl32 (x r : Nat) : Nat :=
  ((x <<< r) % 4294967296) ||| (x >>> (32 - r))

/-- Murmur3 32-bit scramble step for one 4-byte block. -/
def murmurScramble (k : Nat) : Nat :=
  mul32 (rotl32 (mul32 k 3432918353) 15) 461845907

/-- Murmur3 32-bit main loop over the byte list (little-endian 4-byte
blocks), followed by the tail handling. -/
def murmurGo : List Nat → Nat → Nat
  | b0 :: b1 :: b2 :: b3 :: rest, h =>
      let k := b0 + 256 * b1 + 65536 * b2 + 16777216 * b3
      murmurGo rest (m32 (mul32 (rotl32 (Nat.xor h (murmurScramble k)) 13) 5 + 3864292196))
  | [], h => h
  | tail, h =>
      let k := tail.foldr (fun b acc => b + 256 * acc) 0
      Nat.xor h (murmurScramble k)

/-- Murmur3 32-bit finalization mix. -/
def fmix32 (x : Nat) : Nat :=
  let h := Nat.xor x (x >>> 16)
  let h := mul32 h 2246822507
  let h := Nat.xor h (h >>> 13)
  let h := mul32 h 3266489909
  Nat.xor h (h >>> 16)

/-- Hex digit for a nibble. -/
def hexDigit (n : Nat) : Char :=
  if n < 10 then Char.ofNat (48 + n) else Char.ofNat (87 + n)

/-- Fixed-width 8-character hexadecimal rendering of a 32-bit value. -/
def toHex8 (n : Nat) : String :=
  String.mk ((List.range 8).map (fun i => hexDigit ((n >>> ((7 - i) * 4)) % 16)))

/-- Modelled from the spec: `Helper.murmurHash` of `koatty_lib` (external),
the "fixed, fast, non-cryptographic hash (e.g., 32-bit Murmur-style)
producing a fixed-length hex/base representation" of spec section 4.1.
Implemented as Murmur3 32-bit (seed 0) over the string's character codes,
rendered as exactly 8 hex characters. -/
def murmurHash (s : String) : String :=
  let bytes := s.data.map (fun c => c.toNat % 256)
  toHex8 (fmix32 (Nat.xor (murmurGo bytes 0) bytes.length))

/-- Index of a string in a list, `-1` when absent: the JavaScript
`Array.prototype.indexOf` used by `getParamIndex` in `src/utils.ts`. -/
def strIndexOf (funcParams : List String) (param : String) : Int :=
  match funcParams.indexOf? param with
  | some i => (i : Int)
  | none => -1

/-- Embeds `getParamIndex` of `src/utils.ts`: maps every declared parameter
name to its positional index in the method's parameter list (`-1` if not
found). -/
def getParamIndex (funcParams : List String) (params : List String) : List Int :=
  params.map (strIndexOf funcParams)

/-- The key-length threshold `longKey` of `src/utils.ts`. -/
def longKey : Nat := 128

/-- JavaScript indexing `props[i]` on an argument list: out-of-range (or
negative) indexes yield `undefined`. -/
def jsIndex (props : List Value) (i : Int) : Value :=
  if i < 0 then Value.vundef else (props.getD i.toNat Value.vundef)

instance (v : Value) : Decidable (v = Value.vundef) := by
  cases v <;> first
    | exact isTrue rfl
    | exact isFalse (by intro h; cases h)

/-- Embeds the key-assembly loop of `generateCacheKey` in `src/utils.ts`:
for each declared parameter (in declared order), when its index is
non-negative and the argument at that index is defined, append the segment
`:<paramName>:<stringified value>`.  The two lists are traversed in parallel
(`generateCacheKey` always receives them with equal length, since
`paramIndexes` is produced by `getParamIndex` from `paramNames`). -/
def rawCacheKeySegs : List Int → List String → List Value → String
  | i :: is, n :: ns, props =>
      (if 0 ≤ i ∧ (jsIndex props i) ≠ Value.vundef
        then ":" ++ n ++ ":" ++ helperToString (jsIndex props i)
        else "")
      ++ rawCacheKeySegs is ns props
  | _, _, _ => ""

/-- The raw assembled key of `generateCacheKey` before the length fallback. -/
def rawCacheKey (cacheName : String) (paramIndexes : List Int)
    (paramNames : List String) (props : List Value) : String :=
  cacheName ++ rawCacheKeySegs paramIndexes paramNames props

/-- Embeds `generateCacheKey` of `src/utils.ts`: assemble the raw key, then
replace it by its murmur hash when it exceeds `longKey` characters. -/
def generateCacheKey (cacheName : String) (paramIndexes : List Int)
    (paramNames : List String) (props : List Value) : String :=
  let key := rawCacheKey cacheName paramIndexes paramNames props
  if key.length > longKey then murmurHash key else key

/-- JSON string escaping used by the encoder model (quotes, backslashes,
and the common control characters). -/
def jsonEscapeChar (c : Char) : String :=
  if c = '"' then "\\\""
  else if c = '\\' then "\\\\"
  else if c = '\n' then "\\n"
  else if c = '\t' then "\\t"
  else if c = '\r' then "\\r"
  else String.mk [c]

/-- Escape a whole string for JSON output. -/
def jsonEscape (s : String) : String := String.join (s.data.map jsonEscapeChar)

mutual

/-- Modelled from the spec: the JSON serialization built-in `JSON.stringify`
(spec sections 1 and 8: "JSON-like value encoding", "serialization
round-trip").  `undefined` inside an array renders as `null`; `undefined`
object fields are skipped; integers only. -/
def jsonStringify : Value → String
  | Value.vundef => "null"
  | Value.vnull => "null"
  | Value.vbool true => "true"
  | Value.vbool false => "false"
  | Value.vnum n => toString n
  | Value.vstr s => "\"" ++ jsonEscape s ++ "\""
  | Value.varr es => "[" ++ String.intercalate "," (elemStrings es) ++ "]"
  | Value.vobj fs =>
      String.mk [lbrace] ++ String.intercalate "," (fieldStrings fs) ++ String.mk [rbrace]

/-- Rendered array elements, in order. -/
def elemStrings : ValueList → List String
  | ValueList.nil => []
  | ValueList.cons Value.vundef rest => "null" :: elemStrings rest
  | ValueList.cons v rest => jsonStringify v :: elemStrings rest

/-- Rendered object fields, in order, skipping `undefined` values. -/
def fieldStrings : FieldList → List String
  | FieldList.nil => []
  | FieldList.cons _ Value.vundef rest => fieldStrings rest
  | FieldList.cons k v rest =>
      ("\"" ++ jsonEscape k ++ "\":" ++ jsonStringify v) :: fieldStrings rest

end

/-- Whitespace skipping for the JSON parser model. -/
def skipWs : List Char → List Char
  | c :: cs => if c = ' ' ∨ c = '\t' ∨ c = '\n' ∨ c = '\r' then skipWs cs else c :: cs
  | [] => []

/-- Decode a JSON escape character (the escapes the encoder model emits,
plus the forward slash). -/
def unescapeChar (c : Char) : Option Char :=
  if c = '"' then some '"'
  else if c = '\\' then some '\\'
  else if c = '/' then some '/'
  else if c = 'n' then some '\n'
  else if c = 't' then some '\t'
  else if c = 'r' then some '\r'
  else none

/-- Parse the body of a JSON string after the opening quote (fuelled). -/
def parseStringBody : Nat → List Char → Option (String × List Char)
  | 0, _ => none
  | Nat.succ fuel, input =>
    match input with
    | [] => none
    | c :: cs =>
      if c = '"' then some ("", cs)
      else if c = '\\' then
        match cs with
        | [] => none
        | e :: cs2 =>
          match unescapeChar e with
          | none => none
          | some ec =>
            match parseStringBody fuel cs2 with
            | none => none
            | some (s, rest) => some (String.mk (ec :: s.data), rest)
      else
        match parseStringBody fuel cs with
        | none => none
        | some (s, rest) => some (String.mk (c :: s.data), rest)

/-- Decimal digit test. -/
def isDigitChar (c : Char) : Bool := 48 ≤ c.toNat ∧ c.toNat ≤ 57

/-- Split off a maximal run of decimal digits. -/
def takeDigits : List Char → List Char × List Char
  | [] => ([], [])
  | c :: cs =>
      if isDigitChar c then
        let p := takeDigits cs
        (c :: p.1, p.2)
      else ([], c :: cs)

/-- Numeric value of a digit run. -/
def digitsVal (ds : List Char) : Nat := ds.foldl (fun acc c => acc * 10 + (c.toNat - 48)) 0

/-- Parse a JSON integer token (the model rejects fractional or exponent
forms, which cannot arise from the integer-only encoder model). -/
def parseNumberTok (input : List Char) : Option (Value × List Char) :=
  let p : Bool × List Char :=
    match input with
    | c :: cs => if c = '-' then (true, cs) else (false, input)
    | [] => (false, [])
  match takeDigits p.2 with
  | ([], _) => none
  | (ds, r) =>
    let n : Int := if p.1 then -(digitsVal ds : Int) else (digitsVal ds : Int)
    match r with
    | c :: _ => if c = '.' ∨ c = 'e' ∨ c = 'E' then none else some (Value.vnum n, r)
    | [] => some (Value.vnum n, [])

/-- Match an exact character sequence. -/
def expectChars : List Char → List Char → Option (List Char)
  | [], input => some input
  | e :: es, c :: cs => if c = e then expectChars es cs else none
  | _ :: _, [] => none

mutual

/-- Fuelled recursive-descent JSON value parser (model of `JSON.parse`). -/
def parseValue : Nat → List Char → Option (Value × List Char)
  | 0, _ => none
  | Nat.succ fuel, input =>
    match skipWs input with
    | [] => none
    | c :: cs =>
      if c = 'n' then
        match expectChars ['u', 'l', 'l'] cs with
        | some rest => some (Value.vnull, rest)
        | none => none
      else if c = 't' then
        match expectChars ['r', 'u', 'e'] cs with
        | some rest => some (Value.vbool true, rest)
        | none => none
      else if c = 'f' then
        match expectChars ['a', 'l', 's', 'e'] cs with
        | some rest => some (Value.vbool false, rest)
        | none => none
      else if c = '"' then
        match parseStringBody (cs.length + 1) cs with
        | some (s, rest) => some (Value.vstr s, rest)
        | none => none
      else if c = '[' then
        match skipWs cs with
        | [] => none
        | d :: ds =>
          if d = ']' then some (Value.varr ValueList.nil, ds)
          else
            match parseElems fuel (d :: ds) with
            | some (es, rest) => some (Value.varr es, rest)
            | none => none
      else if c = lbrace then
        match skipWs cs with
        | [] => none
        | d :: ds =>
          if d = rbrace then some (Value.vobj FieldList.nil, ds)
          else
            match parseFields fuel (d :: ds) with
            | some (fs, rest) => some (Value.vobj fs, rest)
            | none => none
      else parseNumberTok (c :: cs)

/-- Parse the elements of a non-empty JSON array up to the closing bracket. -/
def parseElems : Nat → List Char → Option (ValueList × List Char)
  | 0, _ => none
  | Nat.succ fuel, input =>
    match parseValue fuel input with
    | none => none
    | some (v, rest) =>
      match skipWs rest with
      | [] => none
      | c :: cs =>
        if c = ',' then
          match parseElems fuel cs with
          | some (es, r2) => some (ValueList.cons v es, r2)
          | none => none
        else if c = ']' then some (ValueList.cons v ValueList.nil, cs)
        else none

/-- Parse the fields of a non-empty JSON object up to the closing brace. -/
def parseFields : Nat → List Char → Option (FieldList × List Char)
  | 0, _ => none
  | Nat.succ fuel, input =>
    match skipWs input with
    | [] => none
    | c :: cs =>
      if c = '"' then
        match parseStringBody (cs.length + 1) cs with
        | none => none
        | some (k, rest) =>
          match skipWs rest with
          | [] => none
          | d :: ds =>
            if d = ':' then
              match parseValue fuel ds with
              | none => none
              | some (v, r2) =>
                match skipWs r2 with
                | [] => none
                | e :: es =>
                  if e = ',' then
                    match parseFields fuel es with
                    | some (fs, r3) => some (FieldList.cons k v fs, r3)
                    | none => none
                  else if e = rbrace then some (FieldList.cons k v FieldList.nil, es)
                  else none
            else none
      else none

end

/-- Modelled from the spec: the JSON deserialization built-in `JSON.parse` on
a string; `none` models a thrown `SyntaxError` (decode failure). -/
def jsonParse (s : String) : Option Value :=
  match parseValue (s.length * 2 + 2) s.data with
  | some (v, rest) => if (skipWs rest).isEmpty then some v else none
  | none => none

/-- Models the expression `JSON.parse(x)` applied to a runtime value: a
non-string argument is first coerced to a string (JavaScript ToString), as
happens when a scalar that was stored raw is read back and parsed. -/
def jsParseValue (v : Value) : Option Value := jsonParse (jsToString v)

/-- The backing key-value store's visible state: entries `(key, value, ttl)`.
Models the external store of spec section 6 (memory- or redis-backed): `set`
replaces the entry for a key, `del` removes it, `get` of an absent key yields
`null`.  TTL expiry is not modelled (the claims quantify over executions with
no intervening eviction or expiry). -/
def StoreState : Type := List (String × Value × Nat)

/-- Store read: the stored value, or `null` when the key is absent. -/
def storeGet (st : StoreState) (key : String) : Value :=
  match st.find? (fun e => e.1 == key) with
  | some e => e.2.1
  | none => Value.vnull

/-- Store write: replaces any previous entry for the key. -/
def storeSet (st : StoreState) (key : String) (v : Value) (ttl : Nat) : StoreState :=
  (key, v, ttl) :: st.filter (fun e => ! (e.1 == key))

/-- Store delete: removes the entry for the key. -/
def storeDel (st : StoreState) (key : String) : StoreState :=
  st.filter (fun e => ! (e.1 == key))

/-- Per-call fault injection for the store's operations: a `true` flag makes
the corresponding store promise reject (`StoreError`), which the wrappers
swallow with `.catch`. -/
structure Faults where
  getFails : Bool
  setFails : Bool
  delFails : Bool

/-- The fault-free store behaviour. -/
def noFaults : Faults := Faults.mk false false false

/-- A wrapped user operation.  Its behaviour may depend on how many times it
has been invoked before (this models stateful operations), and each
invocation either returns a value or throws an error, modelled by
`Except String Value` with the error message as the error identity. -/
def Op : Type := Nat → Except String Value

/-- Everything observable about one call of a `CacheAble`-wrapped method:
the outcome delivered to the caller, the store state afterwards, and how
many times the wrapped user operation was invoked during the call. -/
structure AbleResult where
  outcome : Except String Value
  store : Option StoreState
  opCalls : Nat

/-- The value written to the store by the current `CacheAble` wrapper:
`Helper.isJSONObj(result) ? JSON.stringify(result) : result`
(`src/cache.ts` line 144). -/
def encodeResult (result : Value) : Value :=
  if isJSONObj result then Value.vstr (jsonStringify result) else result

/-- The TTL used by the current `CacheAble` wrapper:
`options.timeout || cacheManager.getDefaultTimeout()` (`src/cache.ts` line
139).  `none` models an absent `timeout` option; both `undefined` and `0`
are falsy in JavaScript, so both fall back to the manager default. -/
def effectiveTimeout (topt : Option Nat) (mgrTimeout : Nat) : Nat :=
  match topt with
  | none => mgrTimeout
  | some n => if n = 0 then mgrTimeout else n

/-- Embeds one call of the method wrapped by the current `CacheAble`
decorator (`src/cache.ts` lines 98-157).  Arguments: the final cache name,
the method's own parameter-name list (what `getArgs` extracts from its
source), the decorator options (`params`, `timeout`), the `CacheManager`
default timeout, the fault profile for this call's store operations, the
store handle (`none` models `CacheManager.getCacheStore()` returning null),
the wrapped operation, the number of earlier invocations of the operation,
and the call arguments.

Control flow translated from the source:
no store: run the method directly; otherwise derive the key, `get` it
(errors resolve to null), on a non-empty hit try `JSON.parse` and on parse
failure return the raw cached value; on a miss run the method — if it
throws, the enclosing `catch` runs the method a second time and delivers
that second outcome — then write the (possibly stringified) result back
with the effective timeout (write errors swallowed) and return the
result. -/
def cacheAbleCall (cacheName : String) (funcParams : List String)
    (params : List String) (timeoutOpt : Option Nat) (mgrTimeout : Nat)
    (faults : Faults) (store0 : Option StoreState) (op : Op) (prior : Nat)
    (args : List Value) : AbleResult :=
  match store0 with
  | none => AbleResult.mk (op prior) none 1
  | some st =>
    let key := generateCacheKey cacheName (getParamIndex funcParams params) params args
    let cached : Value := if faults.getFails then Value.vnull else storeGet st key
    if isEmptyValue cached = false then
      match jsParseValue cached with
      | some v => AbleResult.mk (Except.ok v) (some st) 0
      | none => AbleResult.mk (Except.ok cached) (some st) 0
    else
      match op prior with
      | Except.error _ => AbleResult.mk (op (prior + 1)) (some st) 2
      | Except.ok result =>
        let ttl := effectiveTimeout timeoutOpt mgrTimeout
        let st2 := if faults.setFails then st else storeSet st key (encodeResult result) ttl
        AbleResult.mk (Except.ok result) (some st2) 1

/-- Everything observable about one call of a `CacheEvict`-wrapped method:
the outcome, the store afterwards, the number of operation invocations, and
the deferred deletes handed to the scheduler as `(key, delayMillis)` pairs
(the call returns without awaiting them). -/
structure EvictResult where
  outcome : Except String Value
  store : Option StoreState
  opCalls : Nat
  scheduled : List (String × Nat)

/-- Embeds one call of the method wrapped by the current `CacheEvict`
decorator (`src/cache.ts` lines 211-261).  `delayedOpt` models the
decorator's `delayedDoubleDeletion` option (`none` = not specified, falling
back to the manager default).

Control flow translated from the source: no store: run the method directly;
otherwise derive the key, run the method — if it throws, the enclosing
`catch` runs it a second time and delivers that outcome, skipping all
deletes — then delete the key (errors swallowed), and when delayed double
deletion is enabled schedule a second delete of the same key after the
hard-coded 5000 ms without awaiting it. -/
def cacheEvictCall (cacheName : String) (funcParams : List String)
    (params : List String) (delayedOpt : Option Bool) (mgrDelayed : Bool)
    (faults : Faults) (store0 : Option StoreState) (op : Op) (prior : Nat)
    (args : List Value) : EvictResult :=
  match store0 with
  | none => EvictResult.mk (op prior) none 1 []
  | some st =>
    let key := generateCacheKey cacheName (getParamIndex funcParams params) params args
    match op prior with
    | Except.error _ => EvictResult.mk (op (prior + 1)) (some st) 2 []
    | Except.ok result =>
      let st2 := if faults.delFails then st else storeDel st key
      let enable := delayedOpt.getD mgrDelayed
      let sched : List (String × Nat) := if enable then [(key, 5000)] else []
      EvictResult.mk (Except.ok result) (some st2) 1 sched

/-- Embeds one call of the method wrapped by the `CacheAble` decorator of
the `part_006` variant (`src/unnamed/part_006` lines 90-123).  Differences
from the current wrapper: store resolution failure is modelled by
`store0 = none` (run directly); a failed `JSON.parse` of a non-empty cached
value deletes the corrupt key (best-effort) and falls through to execute the
method; there is no enclosing catch, so an operation error propagates from
a single invocation; the write always uses the merged option timeout
(default 300). -/
def cacheAbleV6Call (cacheName : String) (funcParams : List String)
    (params : List String) (timeoutOpt : Option Nat)
    (faults : Faults) (store0 : Option StoreState) (op : Op) (prior : Nat)
    (args : List Value) : AbleResult :=
  match store0 with
  | none => AbleResult.mk (op prior) none 1
  | some st =>
    let mergedTimeout := timeoutOpt.getD 300
    let key := generateCacheKey cacheName (getParamIndex funcParams params) params args
    let cached : Value := if faults.getFails then Value.vundef else storeGet st key
    let runAndSet : StoreState → AbleResult := fun st1 =>
      match op prior with
      | Except.error e => AbleResult.mk (Except.error e) (some st1) 1
      | Except.ok result =>
        let st2 :=
          if faults.setFails then st1
          else storeSet st1 key (encodeResult result) mergedTimeout
        AbleResult.mk (Except.ok result) (some st2) 1
    if isEmptyValue cached = false then
      match jsParseValue cached with
      | some v => AbleResult.mk (Except.ok v) (some st) 0
      | none => runAndSet (if faults.delFails then st else storeDel st key)
    else runAndSet st

/-- Everything observable about one call of the legacy (2023, `part_001`)
`CacheAble`-wrapped method, including the mutated `opt.timeout` (that wrapper
assigns into the shared decorator options object). -/
structure LegacyResult where
  outcome : Except String Value
  store : Option StoreState
  opCalls : Nat
  newTimeout : Nat

/-- The legacy key-segment loop of `part_001` (lines 374-381): for each
parameter index, when the argument at that index is defined, append
`:<stringified value>` (no parameter name in the segment). -/
def legacyKeySegs : List Nat → List Value → String
  | i :: is, props =>
      (if (jsIndex props (i : Int)) ≠ Value.vundef
        then ":" ++ helperToString (jsIndex props (i : Int))
        else "")
      ++ legacyKeySegs is props
  | [], _ => ""

/-- The legacy cache key of `part_001` (lines 374-388): start from the
constant `PreKey = "k"`; only when the call has arguments, append the
segments and replace the key by its murmur hash when longer than 32
characters; the stored key is `cacheName + ":" + key`. -/
def legacyCacheKey (cacheName : String) (paramIndexes : List Nat)
    (args : List Value) : String :=
  let key :=
    if args.isEmpty then "k"
    else
      let k2 := "k" ++ legacyKeySegs paramIndexes args
      if k2.length > 32 then murmurHash k2 else k2
  cacheName ++ ":" ++ key

/-- Embeds one call of the method wrapped by the legacy 2023 `CacheAble`
decorator (`src/unnamed/part_001` lines 348-415).  This is the variant with
the cache-penetration guard: an empty result is replaced by the sentinel
`""` and `opt.timeout` is mutated to `5` before the write; a zero/unset
timeout then falls back to `3600`.  The hit path calls `JSON.parse` without
a catch, so a decode failure propagates as an error; the miss path runs the
operation exactly once with no enclosing catch. -/
def cacheAbleLegacyCall (cacheName : String) (paramIndexes : List Nat)
    (timeout0 : Nat) (faults : Faults) (store0 : Option StoreState) (op : Op)
    (prior : Nat) (args : List Value) : LegacyResult :=
  match store0 with
  | none => LegacyResult.mk (op prior) none 1 timeout0
  | some st =>
    let key := legacyCacheKey cacheName paramIndexes args
    let cached : Value := if faults.getFails then Value.vnull else storeGet st key
    if isEmptyValue cached = false then
      match jsParseValue cached with
      | some v => LegacyResult.mk (Except.ok v) (some st) 0 timeout0
      | none => LegacyResult.mk (Except.error "SyntaxError") (some st) 0 timeout0
    else
      match op prior with
      | Except.error e => LegacyResult.mk (Except.error e) (some st) 1 timeout0
      | Except.ok r =>
        let guarded : Value × Nat :=
          if isEmptyValue r then (Value.vstr "", 5) else (r, timeout0)
        let ttl := if guarded.2 = 0 then 3600 else guarded.2
        let st2 :=
          if faults.setFails then st
          else storeSet st key (Value.vstr (jsonStringify guarded.1)) ttl
        LegacyResult.mk (Except.ok guarded.1) (some st2) 1 ttl

/-- State of the single-flight store resolver of `src/unnamed/part_000`:
the cached handle (`storeCache.store`), the in-flight initialization promise
(`initPromise`) identified by a promise id, and instrumentation counting how
often the backend connection routine (`client.getConnection`) and the store
construction (`CacheStore.getInstance`) have run.  Handles are numbered by
`nextHandle`; `CacheStore.getInstance` is modelled as allocating a fresh
handle (the worst case for handle uniqueness). -/
structure ResolverState where
  store : Option Nat
  initPromise : Option Nat
  connectCalls : Nat
  instanceCalls : Nat
  nextHandle : Nat

/-- What a single `GetCacheStore()` call hands back to its caller: an
immediately available handle (or null), or a pending promise the caller
awaits. -/
inductive CallResolution where
  | value : Option Nat → CallResolution
  | pending : Nat → CallResolution

/-- The resolver before any call: uninitialized, no in-flight promise. -/
def initialResolver : ResolverState :=
  ResolverState.mk none none 0 0 0

/-- Embeds one `GetCacheStore(options)` call of `src/unnamed/part_000`
(lines 38-72) under JavaScript run-to-completion semantics: the whole call
up to the first `await` is one atomic step.  In source order: (1) if a
store handle is cached, return it; (2) if an initialization promise is in
flight, return (await) that same promise; (3) if `options` is empty, warn
and return the (null) cached store; (4) otherwise install a fresh
initialization promise whose body synchronously constructs the store,
assigns `storeCache.store`, and starts `client.getConnection()`, suspending
there.  The model assumes `CacheStore.getInstance` honours its contract and
returns a store exposing `getConnection` (so the synchronous `throw` branch
of line 61 is not taken). -/
def resolveCall (s : ResolverState) (optionsEmpty : Bool) (pid : Nat) :
    ResolverState × CallResolution :=
  if s.store.isSome then (s, CallResolution.value s.store)
  else
    match s.initPromise with
    | some p => (s, CallResolution.pending p)
    | none =>
      if optionsEmpty then (s, CallResolution.value s.store)
      else
        (ResolverState.mk (some s.nextHandle) (some pid) (s.connectCalls + 1)
          (s.instanceCalls + 1) (s.nextHandle + 1),
         CallResolution.pending pid)

/-- Embeds the completion event of a successful `client.getConnection()`:
the promise body resumes, returns `storeCache.store`, and the `finally`
clears `initPromise`; every awaiter of the promise receives the returned
handle. -/
def promiseResolve (s : ResolverState) : ResolverState × Option Nat :=
  (ResolverState.mk s.store none s.connectCalls s.instanceCalls s.nextHandle, s.store)

/-- Embeds the completion event of a failed `client.getConnection()`: the
promise body resumes with the exception, the `finally` still clears
`initPromise`, and the promise rejects to its awaiters. -/
def promiseReject (s : ResolverState) : ResolverState :=
  ResolverState.mk s.store none s.connectCalls s.instanceCalls s.nextHandle

/-! Helper lemmas (shared across the claim theorems below). -/

theorem length_mk (l : List Char) : (String.mk l).length = l.length := rfl

theorem toHex8_length (n : Nat) : (toHex8 n).length = 8 := by
  unfold toHex8
  rw [length_mk]
  simp

theorem murmurHash_length (s : String) : (murmurHash s).length = 8 := by
  unfold murmurHash
  exact toHex8_length _

theorem str_ne_empty_of_length_pos (s : String) (h : 0 < s.length) : s ≠ "" := by
  intro he
  rw [he] at h
  simp at h

theorem jsonStringify_ne_empty_of_isJSONObj (r : Value) (h : isJSONObj r = true) :
    jsonStringify r ≠ "" := by
  cases r <;> simp [isJSONObj] at h
  case varr es =>
    apply str_ne_empty_of_length_pos
    simp only [jsonStringify]
    rw [String.length_append, String.length_append]
    have h1 : "[".length = 1 := rfl
    omega
  case vobj fs =>
    apply str_ne_empty_of_length_pos
    simp only [jsonStringify]
    rw [String.length_append, String.length_append]
    have h1 : (String.mk [lbrace]).length = 1 := rfl
    omega

theorem isEmptyValue_encodeResult (r : Value) (h : isJSONObj r = true) :
    isEmptyValue (encodeResult r) = false := by
  have hne := jsonStringify_ne_empty_of_isJSONObj r h
  simp [encodeResult, h, isEmptyValue, hne]

theorem storeGet_set_self (st : StoreState) (k : String) (v : Value) (t : Nat) :
    storeGet (storeSet st k v t) k = v := by
  simp [storeGet, storeSet, List.find?]

theorem storeGet_del_self (st : StoreState) (k : String) :
    storeGet (storeDel st k) k = Value.vnull := by
  unfold storeGet storeDel
  have h : List.find? (fun e : String × Value × Nat => e.1 == k)
      (st.filter (fun e => ! (e.1 == k))) = none := by
    rw [List.find?_eq_none]
    intro x hx
    have hmem := List.mem_filter.mp hx
    simpa using hmem.2
  rw [h]

theorem rawCacheKeySegs_congr (is : List Int) (ns : List String)
    (args1 args2 : List Value)
    (h : ∀ i, i ∈ is → 0 ≤ i → jsIndex args1 i = jsIndex args2 i) :
    rawCacheKeySegs is ns args1 = rawCacheKeySegs is ns args2 := by
  induction is generalizing ns with
  | nil => cases ns <;> rfl
  | cons i is ih =>
    cases ns with
    | nil => rfl
    | cons n ns =>
      have htail : ∀ j, j ∈ is → 0 ≤ j → jsIndex args1 j = jsIndex args2 j :=
        fun j hj => h j (List.mem_cons_of_mem _ hj)
      by_cases h0 : (0 : Int) ≤ i
      · have hi := h i (List.mem_cons_self _ _) h0
        simp only [rawCacheKeySegs, hi, ih ns htail]
      · simp only [rawCacheKeySegs]
        rw [if_neg (fun hc => h0 hc.1), if_neg (fun hc => h0 hc.1), ih ns htail]

theorem generateCacheKey_congr (cacheName : String) (is : List Int)
    (ns : List String) (args1 args2 : List Value)
    (h : ∀ i, i ∈ is → 0 ≤ i → jsIndex args1 i = jsIndex args2 i) :
    generateCacheKey cacheName is ns args1 = generateCacheKey cacheName is ns args2 := by
  unfold generateCacheKey rawCacheKey
  rw [rawCacheKeySegs_congr is ns args1 args2 h]

theorem rawCacheKeySegs_all_unbound (is : List Int) (ns : List String)
    (props : List Value) (h : ∀ i ∈ is, i < 0) :
    rawCacheKeySegs is ns props = "" := by
  induction is generalizing ns with
  | nil => cases ns <;> rfl
  | cons i is ih =>
    cases ns with
    | nil => rfl
    | cons n ns =>
      have hi := h i (List.mem_cons_self _ _)
      have htail : ∀ j ∈ is, j < 0 := fun j hj => h j (List.mem_cons_of_mem _ hj)
      simp only [rawCacheKeySegs]
      rw [if_neg (fun hc => absurd hi (not_lt.mpr hc.1)), ih ns htail]
      rfl

theorem strIndexOf_not_mem (fp : List String) (p : String) (h : p ∉ fp) :
    strIndexOf fp p = -1 := by
  unfold strIndexOf
  have hn : fp.indexOf? p = none := by
    rw [List.indexOf?_eq_none_iff]
    exact fun x hx hbeq => h (eq_of_beq hbeq ▸ hx)
  rw [hn]

theorem cacheAbleCall_miss_ok (cacheName : String) (funcParams params : List String)
    (timeoutOpt : Option Nat) (mgrTimeout : Nat) (f : Faults) (st : StoreState)
    (op : Op) (prior : Nat) (args : List Value) (r : Value)
    (hmiss : storeGet st
      (generateCacheKey cacheName (getParamIndex funcParams params) params args)
      = Value.vnull)
    (hop : op prior = Except.ok r) :
    cacheAbleCall cacheName funcParams params timeoutOpt mgrTimeout f (some st) op prior args
      = AbleResult.mk (Except.ok r)
          (some (if f.setFails then st
            else storeSet st
              (generateCacheKey cacheName (getParamIndex funcParams params) params args)
              (encodeResult r) (effectiveTimeout timeoutOpt mgrTimeout))) 1 := by
  cases hg : f.getFails <;>
    simp [cacheAbleCall, hg, hmiss, hop, isEmptyValue]

theorem cacheAbleCall_miss_error (cacheName : String) (funcParams params : List String)
    (timeoutOpt : Option Nat) (mgrTimeout : Nat) (f : Faults) (st : StoreState)
    (op : Op) (prior : Nat) (args : List Value) (e : String)
    (hmiss : storeGet st
      (generateCacheKey cacheName (getParamIndex funcParams params) params args)
      = Value.vnull)
    (hop : op prior = Except.error e) :
    cacheAbleCall cacheName funcParams params timeoutOpt mgrTimeout f (some st) op prior args
      = AbleResult.mk (op (prior + 1)) (some st) 2 := by
  cases hg : f.getFails <;>
    simp [cacheAbleCall, hg, hmiss, hop, isEmptyValue]

theorem cacheAbleCall_hit (cacheName : String) (funcParams params : List String)
    (timeoutOpt : Option Nat) (mgrTimeout : Nat) (f : Faults) (st : StoreState)
    (op : Op) (prior : Nat) (args : List Value) (c : Value)
    (hg : f.getFails = false)
    (hc : storeGet st
      (generateCacheKey cacheName (getParamIndex funcParams params) params args) = c)
    (hne : isEmptyValue c = false) :
    cacheAbleCall cacheName funcParams params timeoutOpt mgrTimeout f (some st) op prior args
      = (match jsParseValue c with
         | some v => AbleResult.mk (Except.ok v) (some st) 0
         | none => AbleResult.mk (Except.ok c) (some st) 0) := by
  simp [cacheAbleCall, hg, hc, hne]

/-- C5: key derivation is insensitive to undeclared arguments — for every
base name, declared parameter list with its bound indexes, and any two
argument lists that agree at each bound index of a declared parameter,
`generateCacheKey` produces identical keys, whatever the other argument
positions hold. -/
theorem c5_key_insensitivity (cacheName : String) (funcParams params : List String)
    (args1 args2 : List Value)
    (h : ∀ i, i ∈ getParamIndex funcParams params → 0 ≤ i →
      jsIndex args1 i = jsIndex args2 i) :
    generateCacheKey cacheName (getParamIndex funcParams params) params args1
      = generateCacheKey cacheName (getParamIndex funcParams params) params args2 :=
  generateCacheKey_congr cacheName (getParamIndex funcParams params) params args1 args2 h

theorem c5_witness :
    generateCacheKey "run" (getParamIndex ["name", "age"] ["name"]) ["name"]
        [Value.vstr "tom", Value.vnum 11]
      = generateCacheKey "run" (getParamIndex ["name", "age"] ["name"]) ["name"]
        [Value.vstr "tom", Value.vnum 99] := by
  apply c5_key_insensitivity
  intro i hi h0
  have hidx : getParamIndex ["name", "age"] ["name"] = [0] := rfl
  rw [hidx] at hi
  have hz : i = 0 := List.mem_singleton.mp hi
  subst hz
  rfl

/-- C6: every generated key is at most 128 characters long; whenever the raw
assembled key exceeds 128 characters it is replaced by the fixed-length
murmur hash of itself.  (Determinism across repeated calls holds because all
embedded functions are pure.) -/
theorem c6_key_length_bound (cacheName : String) (paramIndexes : List Int)
    (paramNames : List String) (props : List Value) :
    (generateCacheKey cacheName paramIndexes paramNames props).length ≤ longKey
    ∧ ((rawCacheKey cacheName paramIndexes paramNames props).length > longKey →
        generateCacheKey cacheName paramIndexes paramNames props
          = murmurHash (rawCacheKey cacheName paramIndexes paramNames props)) := by
  simp only [generateCacheKey]
  by_cases hlen : (rawCacheKey cacheName paramIndexes paramNames props).length > longKey
  · rw [if_pos hlen]
    refine ⟨?_, fun _ => rfl⟩
    rw [murmurHash_length]
    unfold longKey
    omega
  · rw [if_neg hlen]
    exact ⟨Nat.le_of_not_lt hlen, fun hc => absurd hc hlen⟩

/-- A 200-character base name, used to exercise the hash fallback. -/
def bigName : String := String.mk (List.replicate 200 'x')

theorem c6_witness :
    (generateCacheKey bigName [] [] []).length ≤ longKey
    ∧ generateCacheKey bigName [] [] [] = murmurHash (rawCacheKey bigName [] [] []) :=
  ⟨(c6_key_length_bound bigName [] [] []).1,
   (c6_key_length_bound bigName [] [] []).2 (by decide)⟩

theorem str_append_empty (s : String) : s ++ "" = s := by
  cases s with
  | mk l => show String.mk (l ++ []) = String.mk l; rw [List.append_nil]

/-- C7 counterexample: with zero declared parameters but a base name longer
than 128 characters, `generateCacheKey` does not return the base name —
the unconditional length fallback replaces it by its murmur hash.  This
refutes the claim's "returns the base name exactly" for such base names. -/
theorem c7_counterexample : generateCacheKey bigName [] [] [] ≠ bigName := by
  decide

/-- C7 (amended): with zero declared parameters, or with every declared
parameter unbound (index `-1`), `generateCacheKey` returns the base name
exactly *provided the base name is at most 128 characters* (otherwise the
hash fallback applies); a declared name missing from the method's parameter
list resolves to the sentinel `-1` (and, being negative, contributes
nothing, so the call never crashes); a declared parameter bound to
`undefined` is omitted from the key, while one bound to the explicit falsy
values `0` or `""` contributes a segment. -/
theorem c7_edge_cases_amended :
    (∀ (name : String) (props : List Value), name.length ≤ longKey →
        generateCacheKey name [] [] props = name)
    ∧ (∀ (name : String) (idxs : List Int) (ns : List String) (props : List Value),
        (∀ i ∈ idxs, i < 0) → name.length ≤ longKey →
        generateCacheKey name idxs ns props = name)
    ∧ (∀ (funcParams : List String) (n : String) (ps : List String), n ∉ funcParams →
        getParamIndex funcParams (n :: ps) = -1 :: getParamIndex funcParams ps)
    ∧ (∀ (p : String) (i : Int) (props : List Value), 0 ≤ i →
        jsIndex props i = Value.vundef → rawCacheKeySegs [i] [p] props = "")
    ∧ (∀ (p : String) (i : Int) (props : List Value), 0 ≤ i →
        jsIndex props i = Value.vnum 0 →
        rawCacheKeySegs [i] [p] props = ":" ++ p ++ ":" ++ "0")
    ∧ (∀ (p : String) (i : Int) (props : List Value), 0 ≤ i →
        jsIndex props i = Value.vstr "" →
        rawCacheKeySegs [i] [p] props = ":" ++ p ++ ":" ++ "") := by
  refine ⟨?_, ?_, ?_, ?_, ?_, ?_⟩
  · intro name props h
    have hsegs : rawCacheKeySegs [] [] props = "" := rfl
    simp only [generateCacheKey, rawCacheKey, hsegs, str_append_empty]
    rw [if_neg (not_lt.mpr h)]
  · intro name idxs ns props hneg h
    simp only [generateCacheKey, rawCacheKey]
    rw [rawCacheKeySegs_all_unbound idxs ns props hneg, str_append_empty,
      if_neg (not_lt.mpr h)]
  · intro fp n ps h
    simp [getParamIndex, strIndexOf_not_mem fp n h]
  · intro p i props h0 hu
    simp only [rawCacheKeySegs]
    rw [if_neg (fun hc => hc.2 hu)]
    rfl
  · intro p i props h0 hv
    simp only [rawCacheKeySegs]
    rw [if_pos ⟨h0, by rw [hv]; intro hc; cases hc⟩, hv, str_append_empty]
    rfl
  · intro p i props h0 hv
    simp only [rawCacheKeySegs]
    rw [if_pos ⟨h0, by rw [hv]; intro hc; cases hc⟩, hv, str_append_empty]
    rfl

theorem c7_witness :
    generateCacheKey "stats" [] [] [] = "stats"
    ∧ generateCacheKey "user" [-1] ["id"] [Value.vstr "42"] = "user"
    ∧ getParamIndex ["name", "age"] ["missing"] = [-1]
    ∧ rawCacheKeySegs [0] ["id"] [Value.vundef] = ""
    ∧ rawCacheKeySegs [0] ["id"] [Value.vnum 0] = ":" ++ "id" ++ ":" ++ "0"
    ∧ rawCacheKeySegs [0] ["id"] [Value.vstr ""] = ":" ++ "id" ++ ":" ++ "" :=
  ⟨c7_edge_cases_amended.1 "stats" [] (by decide),
   c7_edge_cases_amended.2.1 "user" [-1] ["id"] [Value.vstr "42"]
     (by decide) (by decide),
   c7_edge_cases_amended.2.2.1 ["name", "age"] "missing" [] (by decide),
   c7_edge_cases_amended.2.2.2.1 "id" 0 [Value.vundef] (by decide) rfl,
   c7_edge_cases_amended.2.2.2.2.1 "id" 0 [Value.vnum 0] (by decide) rfl,
   c7_edge_cases_amended.2.2.2.2.2 "id" 0 [Value.vstr ""] (by decide) rfl⟩

/-- An operation that always returns `null` (an empty result). -/
def opAlwaysNull : Op := fun _ => Except.ok Value.vnull

/-- An operation that always returns the string `"123"`, whose text happens
to parse as a JSON number. -/
def opStr123 : Op := fun _ => Except.ok (Value.vstr "123")

/-- C1 counterexample: two refutations of the read-after-write claim on the
current wrapper.  First, for an operation returning the empty result `null`,
two calls with identical arguments against an initially fresh store invoke
the operation twice, not once (the cached `null` is treated as a miss).
Second, for an operation returning the string `"123"` — stored raw because
it is not a JSON object — the second call returns the number `123`, which
differs from the first call's result after the serialization round-trip
(that round-trip yields the string `"123"` again). -/
theorem c1_counterexample :
    ((cacheAbleCall "n" [] [] (some 300) 300 noFaults (some []) opAlwaysNull 0 []).opCalls
      + (cacheAbleCall "n" [] [] (some 300) 300 noFaults
          (cacheAbleCall "n" [] [] (some 300) 300 noFaults (some []) opAlwaysNull 0 []).store
          opAlwaysNull 1 []).opCalls = 2)
    ∧ (cacheAbleCall "n" [] [] (some 300) 300 noFaults
        (cacheAbleCall "n" [] [] (some 300) 300 noFaults (some []) opStr123 0 []).store
        opStr123 1 []).outcome = Except.ok (Value.vnum 123)
    ∧ jsonParse (jsonStringify (Value.vstr "123")) = some (Value.vstr "123")
    ∧ (Value.vnum 123 : Value) ≠ Value.vstr "123" :=
  ⟨rfl, rfl, rfl, fun h => Value.noConfusion h⟩

/-- C1 (amended): read-after-write restricted to non-empty JSON object or
array results.  For such a result, two calls with identical cache-relevant
arguments against a store that misses the derived key invoke the underlying
operation exactly once (the first call performs the single invocation and
writes the serialized result; the second call performs none), and the second
call's return value is the first call's result after the serialization
round-trip (`JSON.parse` of `JSON.stringify`). -/
theorem c1_read_after_write_amended
    (cacheName : String) (funcParams params : List String) (timeoutOpt : Option Nat)
    (mgrTimeout : Nat) (st : StoreState) (op : Op) (args1 args2 : List Value)
    (r w : Value)
    (hagree : ∀ i, i ∈ getParamIndex funcParams params → 0 ≤ i →
      jsIndex args1 i = jsIndex args2 i)
    (hmiss : storeGet st
      (generateCacheKey cacheName (getParamIndex funcParams params) params args1)
      = Value.vnull)
    (hop : op 0 = Except.ok r)
    (hobj : isJSONObj r = true)
    (hrt : jsonParse (jsonStringify r) = some w) :
    cacheAbleCall cacheName funcParams params timeoutOpt mgrTimeout noFaults
        (some st) op 0 args1
      = AbleResult.mk (Except.ok r)
          (some (storeSet st
            (generateCacheKey cacheName (getParamIndex funcParams params) params args1)
            (encodeResult r) (effectiveTimeout timeoutOpt mgrTimeout))) 1
    ∧ cacheAbleCall cacheName funcParams params timeoutOpt mgrTimeout noFaults
        (some (storeSet st
          (generateCacheKey cacheName (getParamIndex funcParams params) params args1)
          (encodeResult r) (effectiveTimeout timeoutOpt mgrTimeout))) op 1 args2
      = AbleResult.mk (Except.ok w)
          (some (storeSet st
            (generateCacheKey cacheName (getParamIndex funcParams params) params args1)
            (encodeResult r) (effectiveTimeout timeoutOpt mgrTimeout))) 0 := by
  have hkey2 :
      generateCacheKey cacheName (getParamIndex funcParams params) params args2
        = generateCacheKey cacheName (getParamIndex funcParams params) params args1 :=
    (generateCacheKey_congr cacheName (getParamIndex funcParams params) params
      args1 args2 hagree).symm
  have henc : encodeResult r = Value.vstr (jsonStringify r) := by
    simp [encodeResult, hobj]
  have h1 := cacheAbleCall_miss_ok cacheName funcParams params timeoutOpt mgrTimeout
    noFaults st op 0 args1 r hmiss hop
  have hc2 : storeGet
      (storeSet st
        (generateCacheKey cacheName (getParamIndex funcParams params) params args1)
        (encodeResult r) (effectiveTimeout timeoutOpt mgrTimeout))
      (generateCacheKey cacheName (getParamIndex funcParams params) params args2)
      = encodeResult r := by
    rw [hkey2]
    exact storeGet_set_self _ _ _ _
  have h2 := cacheAbleCall_hit cacheName funcParams params timeoutOpt mgrTimeout
    noFaults
    (storeSet st
      (generateCacheKey cacheName (getParamIndex funcParams params) params args1)
      (encodeResult r) (effectiveTimeout timeoutOpt mgrTimeout))
    op 1 args2 (encodeResult r) rfl hc2 (isEmptyValue_encodeResult r hobj)
  have hparse : jsParseValue (encodeResult r) = some w := by
    rw [henc]
    show jsonParse (jsonStringify r) = some w
    exact hrt
  rw [hparse] at h2
  exact ⟨h1, h2⟩

/-- An operation returning a one-field JSON object. -/
def opObj : Op := fun _ =>
  Except.ok (Value.vobj (FieldList.cons "a" (Value.vnum 1) FieldList.nil))

theorem c1_witness :
    cacheAbleCall "w1" ["id"] ["id"] (some 60) 300 noFaults (some []) opObj 0
        [Value.vstr "7"]
      = AbleResult.mk
          (Except.ok (Value.vobj (FieldList.cons "a" (Value.vnum 1) FieldList.nil)))
          (some (storeSet []
            (generateCacheKey "w1" (getParamIndex ["id"] ["id"]) ["id"] [Value.vstr "7"])
            (encodeResult (Value.vobj (FieldList.cons "a" (Value.vnum 1) FieldList.nil)))
            (effectiveTimeout (some 60) 300))) 1
    ∧ cacheAbleCall "w1" ["id"] ["id"] (some 60) 300 noFaults
        (some (storeSet []
          (generateCacheKey "w1" (getParamIndex ["id"] ["id"]) ["id"] [Value.vstr "7"])
          (encodeResult (Value.vobj (FieldList.cons "a" (Value.vnum 1) FieldList.nil)))
          (effectiveTimeout (some 60) 300))) opObj 1 [Value.vstr "7"]
      = AbleResult.mk
          (Except.ok (Value.vobj (FieldList.cons "a" (Value.vnum 1) FieldList.nil)))
          (some (storeSet []
            (generateCacheKey "w1" (getParamIndex ["id"] ["id"]) ["id"] [Value.vstr "7"])
            (encodeResult (Value.vobj (FieldList.cons "a" (Value.vnum 1) FieldList.nil)))
            (effectiveTimeout (some 60) 300))) 0 :=
  c1_read_after_write_amended "w1" ["id"] ["id"] (some 60) 300 [] opObj
    [Value.vstr "7"] [Value.vstr "7"]
    (Value.vobj (FieldList.cons "a" (Value.vnum 1) FieldList.nil))
    (Value.vobj (FieldList.cons "a" (Value.vnum 1) FieldList.nil))
    (fun _ _ _ => rfl) rfl rfl rfl (by rfl)

/-- Whether an outcome is a normal return (no thrown error). -/
def exceptIsOk : Except String Value → Bool
  | Except.ok _ => true
  | Except.error _ => false

theorem cacheAbleCall_outcome_cases (cacheName : String)
    (funcParams params : List String) (timeoutOpt : Option Nat) (mgrTimeout : Nat)
    (f : Faults) (store0 : Option StoreState) (op : Op) (prior : Nat)
    (args : List Value) :
    (∃ v, (cacheAbleCall cacheName funcParams params timeoutOpt mgrTimeout f store0
        op prior args).outcome = Except.ok v)
    ∨ (cacheAbleCall cacheName funcParams params timeoutOpt mgrTimeout f store0
        op prior args).outcome = op prior
    ∨ (cacheAbleCall cacheName funcParams params timeoutOpt mgrTimeout f store0
        op prior args).outcome = op (prior + 1) := by
  cases store0 with
  | none => exact Or.inr (Or.inl rfl)
  | some st =>
    simp only [cacheAbleCall]
    by_cases he : isEmptyValue (if f.getFails then Value.vnull
        else storeGet st (generateCacheKey cacheName (getParamIndex funcParams params)
          params args)) = false
    · rw [if_pos he]
      cases hp : jsParseValue (if f.getFails then Value.vnull
          else storeGet st (generateCacheKey cacheName (getParamIndex funcParams params)
            params args)) with
      | none => exact Or.inl ⟨_, rfl⟩
      | some v => exact Or.inl ⟨v, rfl⟩
    · rw [if_neg he]
      cases hop : op prior with
      | error e => exact Or.inr (Or.inr rfl)
      | ok v => exact Or.inl ⟨v, rfl⟩

theorem cacheEvictCall_outcome_cases (cacheName : String)
    (funcParams params : List String) (delayedOpt : Option Bool) (mgrDelayed : Bool)
    (f : Faults) (store0 : Option StoreState) (op : Op) (prior : Nat)
    (args : List Value) :
    (∃ v, (cacheEvictCall cacheName funcParams params delayedOpt mgrDelayed f store0
        op prior args).outcome = Except.ok v)
    ∨ (cacheEvictCall cacheName funcParams params delayedOpt mgrDelayed f store0
        op prior args).outcome = op prior
    ∨ (cacheEvictCall cacheName funcParams params delayedOpt mgrDelayed f store0
        op prior args).outcome = op (prior + 1) := by
  cases store0 with
  | none => exact Or.inr (Or.inl rfl)
  | some st =>
    simp only [cacheEvictCall]
    cases hop : op prior with
    | error e => exact Or.inr (Or.inr rfl)
    | ok v => exact Or.inl ⟨v, rfl⟩

/-- An operation that throws on its first invocation and succeeds on the
next one. -/
def opFailThenOk : Op := fun n =>
  if n = 0 then Except.error "boom" else Except.ok (Value.vstr "ok")

/-- C2 counterexample: a call of a CacheAble-wrapped operation in which the
wrapped operation itself throws (its first invocation errors with "boom"),
yet no error propagates to the caller: the wrapper's catch block re-executes
the operation, the retry succeeds, and the caller receives the retry's value.
The operation also runs twice within the single call. -/
theorem c2_counterexample :
    opFailThenOk 0 = Except.error "boom"
    ∧ cacheAbleCall "n" [] [] (some 300) 300 noFaults (some []) opFailThenOk 0 []
        = AbleResult.mk (Except.ok (Value.vstr "ok")) (some []) 2 :=
  ⟨rfl, rfl⟩

/-- C2 (amended): when the wrapped operation throws, the current wrappers
catch the error and invoke the operation a second time, delivering that
second invocation's outcome to the caller; hence an operation that
deterministically throws `e` still surfaces exactly `e` (for both CacheAble
and CacheEvict, after two invocations, with the store left untouched by
CacheEvict), a call with no store available simply propagates the single
invocation's outcome, and an operation that never throws never surfaces any
error — in particular store errors, decode errors and store unavailability
are never surfaced, under every fault profile. -/
theorem c2_error_propagation_amended :
    (∀ (cacheName : String) (funcParams params : List String)
        (timeoutOpt : Option Nat) (mgrTimeout : Nat) (f : Faults) (op : Op)
        (prior : Nat) (args : List Value),
      (cacheAbleCall cacheName funcParams params timeoutOpt mgrTimeout f none
        op prior args).outcome = op prior)
    ∧ (∀ (cacheName : String) (funcParams params : List String)
        (timeoutOpt : Option Nat) (mgrTimeout : Nat) (f : Faults)
        (st : StoreState) (op : Op) (prior : Nat) (args : List Value) (e : String),
      storeGet st (generateCacheKey cacheName (getParamIndex funcParams params)
        params args) = Value.vnull →
      (∀ n, op n = Except.error e) →
      cacheAbleCall cacheName funcParams params timeoutOpt mgrTimeout f (some st)
          op prior args
        = AbleResult.mk (Except.error e) (some st) 2)
    ∧ (∀ (cacheName : String) (funcParams params : List String)
        (delayedOpt : Option Bool) (mgrDelayed : Bool) (f : Faults)
        (st : StoreState) (op : Op) (prior : Nat) (args : List Value) (e : String),
      (∀ n, op n = Except.error e) →
      cacheEvictCall cacheName funcParams params delayedOpt mgrDelayed f (some st)
          op prior args
        = EvictResult.mk (Except.error e) (some st) 2 [])
    ∧ (∀ (cacheName : String) (funcParams params : List String)
        (timeoutOpt : Option Nat) (mgrTimeout : Nat) (f : Faults)
        (store0 : Option StoreState) (op : Op) (prior : Nat) (args : List Value),
      (∀ n, exceptIsOk (op n) = true) →
      exceptIsOk ((cacheAbleCall cacheName funcParams params timeoutOpt mgrTimeout
        f store0 op prior args).outcome) = true)
    ∧ (∀ (cacheName : String) (funcParams params : List String)
        (delayedOpt : Option Bool) (mgrDelayed : Bool) (f : Faults)
        (store0 : Option StoreState) (op : Op) (prior : Nat) (args : List Value),
      (∀ n, exceptIsOk (op n) = true) →
      exceptIsOk ((cacheEvictCall cacheName funcParams params delayedOpt mgrDelayed
        f store0 op prior args).outcome) = true) := by
  refine ⟨?_, ?_, ?_, ?_, ?_⟩
  · intro cacheName funcParams params timeoutOpt mgrTimeout f op prior args
    rfl
  · intro cacheName funcParams params timeoutOpt mgrTimeout f st op prior args e
      hmiss he
    rw [cacheAbleCall_miss_error cacheName funcParams params timeoutOpt mgrTimeout
      f st op prior args e hmiss (he prior), he (prior + 1)]
  · intro cacheName funcParams params delayedOpt mgrDelayed f st op prior args e he
    simp [cacheEvictCall, he prior, he (prior + 1)]
  · intro cacheName funcParams params timeoutOpt mgrTimeout f store0 op prior args
      hok
    rcases cacheAbleCall_outcome_cases cacheName funcParams params timeoutOpt
      mgrTimeout f store0 op prior args with ⟨v, hv⟩ | h | h
    · rw [hv]; rfl
    · rw [h]; exact hok prior
    · rw [h]; exact hok (prior + 1)
  · intro cacheName funcParams params delayedOpt mgrDelayed f store0 op prior args
      hok
    rcases cacheEvictCall_outcome_cases cacheName funcParams params delayedOpt
      mgrDelayed f store0 op prior args with ⟨v, hv⟩ | h | h
    · rw [hv]; rfl
    · rw [h]; exact hok prior
    · rw [h]; exact hok (prior + 1)

/-- An operation that always throws. -/
def opAlwaysBoom : Op := fun _ => Except.error "boom"

/-- An operation that always succeeds. -/
def opAlwaysOk : Op := fun _ => Except.ok (Value.vstr "v")

/-- A fault profile in which every store operation fails. -/
def allFaults : Faults := Faults.mk true true true

theorem c2_witness :
    (cacheAbleCall "n" [] [] (some 300) 300 noFaults none opAlwaysBoom 0 []).outcome
        = opAlwaysBoom 0
    ∧ cacheAbleCall "n" [] [] (some 300) 300 noFaults (some []) opAlwaysBoom 0 []
        = AbleResult.mk (Except.error "boom") (some []) 2
    ∧ cacheEvictCall "n" [] [] (some true) true noFaults (some []) opAlwaysBoom 0 []
        = EvictResult.mk (Except.error "boom") (some []) 2 []
    ∧ exceptIsOk ((cacheAbleCall "n" [] [] (some 300) 300 allFaults (some [])
        opAlwaysOk 0 []).outcome) = true
    ∧ exceptIsOk ((cacheEvictCall "n" [] [] (some true) true allFaults (some [])
        opAlwaysOk 0 []).outcome) = true :=
  ⟨c2_error_propagation_amended.1 "n" [] [] (some 300) 300 noFaults opAlwaysBoom 0 [],
   c2_error_propagation_amended.2.1 "n" [] [] (some 300) 300 noFaults [] opAlwaysBoom
     0 [] "boom" rfl (fun _ => rfl),
   c2_error_propagation_amended.2.2.1 "n" [] [] (some true) true noFaults []
     opAlwaysBoom 0 [] "boom" (fun _ => rfl),
   c2_error_propagation_amended.2.2.2.1 "n" [] [] (some 300) 300 allFaults (some [])
     opAlwaysOk 0 [] (fun _ => rfl),
   c2_error_propagation_amended.2.2.2.2 "n" [] [] (some true) true allFaults (some [])
     opAlwaysOk 0 [] (fun _ => rfl)⟩

/-- An operation that returns a fresh (non-cached) string. -/
def opFresh : Op := fun _ => Except.ok (Value.vstr "fresh")

/-- C3 counterexample: against a store holding the non-empty value
`"hello"` — which fails JSON decoding — the current CacheAble wrapper does
not treat the hit as a miss: it returns the corrupt cached value itself to
the caller, never invokes the wrapped operation (0 invocations), and leaves
the corrupt entry in the store (no delete). -/
theorem c3_counterexample :
    jsParseValue (Value.vstr "hello") = none
    ∧ cacheAbleCall "n" [] [] (some 300) 300 noFaults
        (some [("n", Value.vstr "hello", 300)]) opFresh 0 []
      = AbleResult.mk (Except.ok (Value.vstr "hello"))
          (some [("n", Value.vstr "hello", 300)]) 0 :=
  ⟨rfl, rfl⟩

/-- C3 (amended): the two CacheAble generations treat a non-empty cached
value that fails to decode differently.  The current wrapper
(`src/cache.ts`) returns the raw cached value as-is, without invoking the
operation and without deleting the key.  The `part_006` variant implements
the claimed behaviour: it deletes the corrupt key and falls through to
execute the operation (exactly once), writing the fresh result back; the
delete is best-effort — if the delete itself fails the error is swallowed
and the operation still runs. -/
theorem c3_decode_failure_amended :
    (∀ (cacheName : String) (funcParams params : List String)
        (timeoutOpt : Option Nat) (mgrTimeout : Nat) (st : StoreState) (op : Op)
        (prior : Nat) (args : List Value) (c : Value),
      storeGet st (generateCacheKey cacheName (getParamIndex funcParams params)
        params args) = c →
      isEmptyValue c = false → jsParseValue c = none →
      cacheAbleCall cacheName funcParams params timeoutOpt mgrTimeout noFaults
          (some st) op prior args
        = AbleResult.mk (Except.ok c) (some st) 0)
    ∧ (∀ (cacheName : String) (funcParams params : List String)
        (timeoutOpt : Option Nat) (st : StoreState) (op : Op) (prior : Nat)
        (args : List Value) (c r : Value),
      storeGet st (generateCacheKey cacheName (getParamIndex funcParams params)
        params args) = c →
      isEmptyValue c = false → jsParseValue c = none → op prior = Except.ok r →
      cacheAbleV6Call cacheName funcParams params timeoutOpt noFaults (some st)
          op prior args
        = AbleResult.mk (Except.ok r)
            (some (storeSet
              (storeDel st (generateCacheKey cacheName
                (getParamIndex funcParams params) params args))
              (generateCacheKey cacheName (getParamIndex funcParams params)
                params args)
              (encodeResult r) (timeoutOpt.getD 300))) 1)
    ∧ (∀ (cacheName : String) (funcParams params : List String)
        (timeoutOpt : Option Nat) (st : StoreState) (op : Op) (prior : Nat)
        (args : List Value) (c r : Value),
      storeGet st (generateCacheKey cacheName (getParamIndex funcParams params)
        params args) = c →
      isEmptyValue c = false → jsParseValue c = none → op prior = Except.ok r →
      cacheAbleV6Call cacheName funcParams params timeoutOpt
          (Faults.mk false false true) (some st) op prior args
        = AbleResult.mk (Except.ok r)
            (some (storeSet st
              (generateCacheKey cacheName (getParamIndex funcParams params)
                params args)
              (encodeResult r) (timeoutOpt.getD 300))) 1) := by
  refine ⟨?_, ?_, ?_⟩
  · intro cacheName funcParams params timeoutOpt mgrTimeout st op prior args c
      hc hne hp
    rw [cacheAbleCall_hit cacheName funcParams params timeoutOpt mgrTimeout
      noFaults st op prior args c rfl hc hne, hp]
  · intro cacheName funcParams params timeoutOpt st op prior args c r hc hne hp hop
    simp [cacheAbleV6Call, noFaults, hc, hne, hp, hop]
  · intro cacheName funcParams params timeoutOpt st op prior args c r hc hne hp hop
    simp [cacheAbleV6Call, hc, hne, hp, hop]

theorem c3_witness :
    cacheAbleCall "k3" [] [] (some 300) 300 noFaults
        (some [("k3", Value.vstr "hello", 300)]) opFresh 0 []
      = AbleResult.mk (Except.ok (Value.vstr "hello"))
          (some [("k3", Value.vstr "hello", 300)]) 0
    ∧ cacheAbleV6Call "k3" [] [] (some 300) noFaults
        (some [("k3", Value.vstr "hello", 300)]) opFresh 0 []
      = AbleResult.mk (Except.ok (Value.vstr "fresh"))
          (some (storeSet
            (storeDel [("k3", Value.vstr "hello", 300)]
              (generateCacheKey "k3" (getParamIndex [] []) [] []))
            (generateCacheKey "k3" (getParamIndex [] []) [] [])
            (encodeResult (Value.vstr "fresh")) ((some 300).getD 300))) 1
    ∧ cacheAbleV6Call "k3" [] [] (some 300) (Faults.mk false false true)
        (some [("k3", Value.vstr "hello", 300)]) opFresh 0 []
      = AbleResult.mk (Except.ok (Value.vstr "fresh"))
          (some (storeSet [("k3", Value.vstr "hello", 300)]
            (generateCacheKey "k3" (getParamIndex [] []) [] [])
            (encodeResult (Value.vstr "fresh")) ((some 300).getD 300))) 1 :=
  ⟨c3_decode_failure_amended.1 "k3" [] [] (some 300) 300
      [("k3", Value.vstr "hello", 300)] opFresh 0 [] (Value.vstr "hello")
      rfl rfl rfl,
   c3_decode_failure_amended.2.1 "k3" [] [] (some 300)
      [("k3", Value.vstr "hello", 300)] opFresh 0 [] (Value.vstr "hello")
      (Value.vstr "fresh") rfl rfl rfl rfl,
   c3_decode_failure_amended.2.2 "k3" [] [] (some 300)
      [("k3", Value.vstr "hello", 300)] opFresh 0 [] (Value.vstr "hello")
      (Value.vstr "fresh") rfl rfl rfl rfl⟩

/-- C4 counterexample: in the current wrapper, an operation returning the
empty result `null` has that result cached with the *configured* TTL
(here 300 seconds, equal to the `timeout` option), not with a strictly
shorter sentinel TTL — there is no penetration guard in `src/cache.ts`. -/
theorem c4_counterexample :
    cacheAbleCall "pg" [] [] (some 300) 300 noFaults (some []) opAlwaysNull 0 []
      = AbleResult.mk (Except.ok Value.vnull) (some [("pg", Value.vnull, 300)]) 1
    ∧ isEmptyValue Value.vnull = true
    ∧ ¬ (300 : Nat) < 300 :=
  ⟨rfl, rfl, by omega⟩

/-- C4 (amended): the penetration guard exists only in the legacy 2020/2023
wrapper.  In the current wrapper an empty result is cached exactly like any
other result, with the effective (configured or default) TTL.  In the legacy
`part_001` wrapper an empty result is replaced by the sentinel `""` and
cached with the fixed TTL 5, which is strictly shorter than any configured
TTL above 5 seconds. -/
theorem c4_penetration_guard_amended :
    (∀ (cacheName : String) (funcParams params : List String)
        (timeoutOpt : Option Nat) (mgrTimeout : Nat) (st : StoreState) (op : Op)
        (prior : Nat) (args : List Value) (r : Value),
      storeGet st (generateCacheKey cacheName (getParamIndex funcParams params)
        params args) = Value.vnull →
      op prior = Except.ok r → isEmptyValue r = true →
      cacheAbleCall cacheName funcParams params timeoutOpt mgrTimeout noFaults
          (some st) op prior args
        = AbleResult.mk (Except.ok r)
            (some (storeSet st
              (generateCacheKey cacheName (getParamIndex funcParams params)
                params args)
              (encodeResult r) (effectiveTimeout timeoutOpt mgrTimeout))) 1)
    ∧ (∀ (cacheName : String) (paramIndexes : List Nat) (t : Nat)
        (st : StoreState) (op : Op) (prior : Nat) (args : List Value) (r : Value),
      5 < t →
      storeGet st (legacyCacheKey cacheName paramIndexes args) = Value.vnull →
      op prior = Except.ok r → isEmptyValue r = true →
      cacheAbleLegacyCall cacheName paramIndexes t noFaults (some st) op prior args
          = LegacyResult.mk (Except.ok (Value.vstr ""))
              (some (storeSet st (legacyCacheKey cacheName paramIndexes args)
                (Value.vstr (jsonStringify (Value.vstr ""))) 5)) 1 5
        ∧ 5 < t) := by
  refine ⟨?_, ?_⟩
  · intro cacheName funcParams params timeoutOpt mgrTimeout st op prior args r
      hmiss hop hemp
    exact cacheAbleCall_miss_ok cacheName funcParams params timeoutOpt mgrTimeout
      noFaults st op prior args r hmiss hop
  · intro cacheName paramIndexes t st op prior args r ht hmiss hop hemp
    refine ⟨?_, ht⟩
    have hnull : isEmptyValue Value.vnull = true := rfl
    simp [cacheAbleLegacyCall, noFaults, hmiss, hnull, hop, hemp]

theorem c4_witness :
    cacheAbleCall "pg2" [] [] (some 120) 300 noFaults (some []) opAlwaysNull 0 []
      = AbleResult.mk (Except.ok Value.vnull)
          (some (storeSet [] (generateCacheKey "pg2" (getParamIndex [] []) [] [])
            (encodeResult Value.vnull) (effectiveTimeout (some 120) 300))) 1
    ∧ (cacheAbleLegacyCall "pg2" [] 120 noFaults (some []) opAlwaysNull 0 []
        = LegacyResult.mk (Except.ok (Value.vstr ""))
            (some (storeSet [] (legacyCacheKey "pg2" [] [])
              (Value.vstr (jsonStringify (Value.vstr ""))) 5)) 1 5
      ∧ 5 < 120) :=
  ⟨c4_penetration_guard_amended.1 "pg2" [] [] (some 120) 300 [] opAlwaysNull 0 []
      Value.vnull rfl rfl rfl,
   c4_penetration_guard_amended.2 "pg2" [] 120 [] opAlwaysNull 0 [] Value.vnull
      (by omega) rfl rfl rfl⟩

/-- C8: when the wrapped operation of a CacheEvict-wrapped call succeeds,
the wrapper runs the operation first (exactly once), deletes the derived key
immediately — so a subsequent `store.get` of that key returns empty — and,
exactly when delayed double deletion is effectively enabled (the decorator's
option, falling back to the manager default), hands a second delete of the
same key with the fixed 5000 ms delay to the deferred scheduler; the
scheduled delete remains pending in the result (the call returns the
operation's value without awaiting it). -/
theorem c8_evict_clears_and_schedules (cacheName : String)
    (funcParams params : List String) (delayedOpt : Option Bool)
    (mgrDelayed : Bool) (st : StoreState) (op : Op) (prior : Nat)
    (args : List Value) (r : Value) (hop : op prior = Except.ok r) :
    cacheEvictCall cacheName funcParams params delayedOpt mgrDelayed noFaults
        (some st) op prior args
      = EvictResult.mk (Except.ok r)
          (some (storeDel st (generateCacheKey cacheName
            (getParamIndex funcParams params) params args))) 1
          (if delayedOpt.getD mgrDelayed
            then [(generateCacheKey cacheName (getParamIndex funcParams params)
              params args, 5000)]
            else [])
    ∧ storeGet (storeDel st (generateCacheKey cacheName
        (getParamIndex funcParams params) params args))
        (generateCacheKey cacheName (getParamIndex funcParams params) params args)
      = Value.vnull := by
  constructor
  · simp [cacheEvictCall, noFaults, hop]
  · exact storeGet_del_self st _

/-- An operation standing for a successful mutation. -/
def opDone : Op := fun _ => Except.ok (Value.vstr "done")

theorem c8_witness :
    cacheEvictCall "ev" ["id"] ["id"] (some true) true noFaults
        (some [("ev:id:7", Value.vstr "cached", 300)]) opDone 0 [Value.vstr "7"]
      = EvictResult.mk (Except.ok (Value.vstr "done"))
          (some (storeDel [("ev:id:7", Value.vstr "cached", 300)]
            (generateCacheKey "ev" (getParamIndex ["id"] ["id"]) ["id"]
              [Value.vstr "7"]))) 1
          (if (some true).getD true
            then [(generateCacheKey "ev" (getParamIndex ["id"] ["id"]) ["id"]
              [Value.vstr "7"], 5000)]
            else [])
    ∧ storeGet (storeDel [("ev:id:7", Value.vstr "cached", 300)]
        (generateCacheKey "ev" (getParamIndex ["id"] ["id"]) ["id"]
          [Value.vstr "7"]))
        (generateCacheKey "ev" (getParamIndex ["id"] ["id"]) ["id"]
          [Value.vstr "7"])
      = Value.vnull :=
  c8_evict_clears_and_schedules "ev" ["id"] ["id"] (some true) true
    [("ev:id:7", Value.vstr "cached", 300)] opDone 0 [Value.vstr "7"]
    (Value.vstr "done") rfl

/-- C10 (implicit): a falsy `timeout` decorator option — absent or an
explicit `0` — makes the cache write fall back to the CacheManager default
timeout, so a TTL of 0 seconds cannot be expressed through the decorator
option (whenever the manager default is non-zero, the written TTL is
non-zero); a call with `timeout: 0` writes the manager default TTL. -/
theorem c10_timeout_fallback :
    (∀ (timeoutOpt : Option Nat) (mgrTimeout : Nat),
      (timeoutOpt = none ∨ timeoutOpt = some 0) →
      effectiveTimeout timeoutOpt mgrTimeout = mgrTimeout)
    ∧ (∀ (timeoutOpt : Option Nat) (mgrTimeout : Nat), mgrTimeout ≠ 0 →
      effectiveTimeout timeoutOpt mgrTimeout ≠ 0)
    ∧ (∀ (cacheName : String) (funcParams params : List String) (mgrTimeout : Nat)
        (st : StoreState) (op : Op) (prior : Nat) (args : List Value) (r : Value),
      storeGet st (generateCacheKey cacheName (getParamIndex funcParams params)
        params args) = Value.vnull →
      op prior = Except.ok r →
      cacheAbleCall cacheName funcParams params (some 0) mgrTimeout noFaults
          (some st) op prior args
        = AbleResult.mk (Except.ok r)
            (some (storeSet st
              (generateCacheKey cacheName (getParamIndex funcParams params)
                params args)
              (encodeResult r) mgrTimeout)) 1) := by
  refine ⟨?_, ?_, ?_⟩
  · rintro topt mgr (rfl | rfl) <;> rfl
  · intro topt mgr h
    cases topt with
    | none => exact h
    | some n =>
      by_cases hn : n = 0
      · simpa [effectiveTimeout, hn] using h
      · simp [effectiveTimeout, hn]
  · intro cacheName funcParams params mgrTimeout st op prior args r hmiss hop
    exact cacheAbleCall_miss_ok cacheName funcParams params (some 0) mgrTimeout
      noFaults st op prior args r hmiss hop

theorem c10_witness :
    effectiveTimeout (some 0) 300 = 300
    ∧ effectiveTimeout (some 0) 300 ≠ 0
    ∧ cacheAbleCall "t0" [] [] (some 0) 300 noFaults (some []) opAlwaysOk 0 []
      = AbleResult.mk (Except.ok (Value.vstr "v"))
          (some (storeSet [] (generateCacheKey "t0" (getParamIndex [] []) [] [])
            (encodeResult (Value.vstr "v")) 300)) 1 :=
  ⟨c10_timeout_fallback.1 (some 0) 300 (Or.inr rfl),
   c10_timeout_fallback.2.1 (some 0) 300 (by omega),
   c10_timeout_fallback.2.2 "t0" [] [] 300 [] opAlwaysOk 0 [] (Value.vstr "v")
     rfl rfl⟩

/-- C9: single-flight store resolution (modelling `part_000` under
JavaScript run-to-completion semantics).  Scenario: two concurrent
first-time `GetCacheStore` calls against the uninitialized resolver — the
first call installs the initialization promise (its body synchronously
constructs handle 0 and starts the connection), the second call immediately
receives the same handle 0, and the promise resolves to the same handle 0
for the first caller; afterwards the connection routine and the store
construction have each run exactly once and the promise is cleared.
Invariants: a call that observes an in-flight initialization promise never
changes the resolver state and (when no handle is cached yet) awaits that
same promise — so at most one promise ever exists and no second one starts
while one is in flight — and both completion events (success and failure)
clear the promise, so a later resolution attempt can start a new one. -/
theorem c9_single_flight :
    ((resolveCall initialResolver false 100).2 = CallResolution.pending 100
     ∧ (resolveCall (resolveCall initialResolver false 100).1 false 101).2
         = CallResolution.value (some 0)
     ∧ (promiseResolve (resolveCall (resolveCall initialResolver false 100).1
         false 101).1).2 = some 0
     ∧ (promiseResolve (resolveCall (resolveCall initialResolver false 100).1
         false 101).1).1.connectCalls = 1
     ∧ (promiseResolve (resolveCall (resolveCall initialResolver false 100).1
         false 101).1).1.instanceCalls = 1
     ∧ (promiseResolve (resolveCall (resolveCall initialResolver false 100).1
         false 101).1).1.initPromise = none)
    ∧ (∀ (s : ResolverState) (b : Bool) (pid p : Nat), s.initPromise = some p →
        (resolveCall s b pid).1 = s
        ∧ (s.store = none → (resolveCall s b pid).2 = CallResolution.pending p))
    ∧ (∀ s : ResolverState, (promiseResolve s).1.initPromise = none
        ∧ (promiseReject s).initPromise = none) := by
  refine ⟨⟨rfl, rfl, rfl, rfl, rfl, rfl⟩, ?_, ?_⟩
  · intro s b pid p hp
    constructor
    · by_cases hs : s.store.isSome = true
      · simp [resolveCall, hs]
      · simp [resolveCall, hs, hp]
    · intro hstore
      have hs : s.store.isSome = false := by rw [hstore]; rfl
      simp [resolveCall, hs, hp]
  · intro s
    exact ⟨rfl, rfl⟩

theorem c9_witness :
    (resolveCall (ResolverState.mk none (some 5) 1 1 1) false 7).1
        = ResolverState.mk none (some 5) 1 1 1
    ∧ (resolveCall (ResolverState.mk none (some 5) 1 1 1) false 7).2
        = CallResolution.pending 5
    ∧ (promiseResolve (ResolverState.mk (some 0) (some 9) 1 1 1)).1.initPromise
        = none :=
  ⟨(c9_single_flight.2.1 (ResolverState.mk none (some 5) 1 1 1) false 7 5 rfl).1,
   (c9_single_flight.2.1 (ResolverState.mk none (some 5) 1 1 1) false 7 5 rfl).2 rfl,
   (c9_single_flight.2.2 (ResolverState.mk (some 0) (some 9) 1 1 1)).1⟩
